import Mathlib

/-!
Shallow embedding of the Cerberus-IDS scoring engine
(`app/services/BlackListTracker.py`, `app/services/ReputationManager.py`,
`app/services/PointRuleBuilder.py`, `app/services/IpGeoLocationTracker.py`
and the models in `app/models/`).

Machine integers are `Nat`/`Int`; IPv4 addresses are `Nat`s below `2^32`;
Python `datetime` values are abstract `Nat` timestamps; Python `float`s are
modelled as rationals (the programs only compare and range-check them).
File-system persistence is modelled as a pure document value (the spec keeps
the *what* of persistence in scope and the *how* of serialization out).
-/

deriving instance DecidableEq for Except

namespace Cerberus

/-! ### IPv4 textual parsing, after Python's `ipaddress` module

`BlackListTracker.py` relies on `ipaddress.ip_address` / `ipaddress.ip_network`
(strict=False).  We model the IPv4 dotted-quad grammar of modern CPython:
four dot-separated decimal octets, each 1–3 digits, value ≤ 255, no leading
zeros, optionally followed by `/` and a decimal prefix length ≤ 32.
(The IPv6 grammar and the dotted-netmask form after `/` are not modelled;
no claim depends on them.) -/

/-- Numeric value of a decimal digit character. -/
def digitVal (c : Char) : Nat := c.toNat - 48

/-- ASCII decimal digit test (what Python's octet / prefix parsing accepts;
same semantics as `Char.isDigit`, phrased on `Char.toNat` so that proofs can
reason about it arithmetically). -/
def isDigitChar (c : Char) : Bool := 48 ≤ c.toNat ∧ c.toNat ≤ 57

/-- Parse one decimal octet (list of characters) as Python's
`ipaddress.IPv4Address._parse_octet` does: 1–3 ASCII digits, no leading
zero unless the octet is exactly "0", value at most 255. -/
def parseOctet : List Char → Option Nat
  | [c] => if isDigitChar c then some (digitVal c) else none
  | [c₁, c₂] =>
    if isDigitChar c₁ ∧ isDigitChar c₂ ∧ c₁ ≠ '0' then
      some (10 * digitVal c₁ + digitVal c₂)
    else none
  | [c₁, c₂, c₃] =>
    if isDigitChar c₁ ∧ isDigitChar c₂ ∧ isDigitChar c₃ ∧ c₁ ≠ '0' then
      let n := 100 * digitVal c₁ + 10 * digitVal c₂ + digitVal c₃
      if n ≤ 255 then some n else none
    else none
  | _ => none

/-- Split a character list at every occurrence of the given separator,
as Python's `str.split` with a one-character separator does
(always returns at least one group; empty groups are kept). -/
def splitSep (sep : Char) : List Char → List (List Char)
  | [] => [[]]
  | c :: rest =>
    if c = sep then [] :: splitSep sep rest
    else
      match splitSep sep rest with
      | [] => [[c]]
      | g :: gs => (c :: g) :: gs

/-- Parse a dotted-quad IPv4 address (as `ipaddress.ip_address` does for
IPv4) into its numeric value below `2^32`. -/
def parseIPv4 (s : String) : Option Nat :=
  match (splitSep '.' s.data).map parseOctet with
  | [some a, some b, some c, some d] =>
    some (((a * 256 + b) * 256 + c) * 256 + d)
  | _ => none

/-- Decimal rendering of one octet (0–255), the canonical form
`str(IPv4Address)` prints. -/
def octetChars (n : Nat) : List Char :=
  if n < 10 then [Char.ofNat (48 + n)]
  else if n < 100 then [Char.ofNat (48 + n / 10), Char.ofNat (48 + n % 10)]
  else [Char.ofNat (48 + n / 100), Char.ofNat (48 + n / 10 % 10),
        Char.ofNat (48 + n % 10)]

/-- Canonical dotted-quad rendering of an address, after
`str(ipaddress.IPv4Address(n))`. -/
def printIPv4 (a : Nat) : String :=
  ⟨octetChars (a / 2 ^ 24 % 256) ++ '.' ::
   (octetChars (a / 2 ^ 16 % 256) ++ '.' ::
    (octetChars (a / 2 ^ 8 % 256) ++ '.' :: octetChars (a % 256)))⟩

/-- An IPv4 network: a (masked) network address plus a prefix length ≤ 32. -/
structure IPv4Network where
  addr : Nat
  prefixLen : Nat
deriving DecidableEq, Repr

/-- Clear the `32 - p` host bits of `a` (what `ipaddress` does in
strict=False mode by AND-ing with the netmask). -/
def maskAddr (a p : Nat) : Nat := 2 ^ (32 - p) * (a / 2 ^ (32 - p))

/-- Parse a decimal prefix length as `IPv4Network._prefix_from_prefix_string`
does: nonempty ASCII digits, value at most 32. -/
def parsePrefixLen (cs : List Char) : Option Nat :=
  if cs ≠ [] ∧ cs.all isDigitChar then
    let p := cs.foldl (fun acc c => 10 * acc + digitVal c) 0
    if p ≤ 32 then some p else none
  else none

/-- Parse an address or CIDR string as `ipaddress.ip_network(s, strict=False)`
does for IPv4: a bare address means prefix 32; with `a/p` the host bits are
masked away rather than rejected. -/
def parseIPv4Network (s : String) : Option IPv4Network :=
  match splitSep '/' s.data with
  | [addrPart] => (parseIPv4 ⟨addrPart⟩).map fun a => ⟨a, 32⟩
  | [addrPart, pPart] => do
    let a ← parseIPv4 ⟨addrPart⟩
    let p ← parsePrefixLen pPart
    some ⟨maskAddr a p, p⟩
  | _ => none

/-- `network.num_addresses` for an IPv4 network. -/
def IPv4Network.numAddresses (net : IPv4Network) : Nat :=
  2 ^ (32 - net.prefixLen)

/-- Python's `ip_addr in network`:
`network_address <= ip <= broadcast_address`. -/
def memNet (a : Nat) (net : IPv4Network) : Bool :=
  decide (net.addr ≤ a ∧ a < net.addr + 2 ^ (32 - net.prefixLen))


/-! ### `BlacklistService` (`app/services/BlackListTracker.py`)

Python stores `single_ips` as a set of strings and `ip_networks` as a set of
parsed network objects; we model both sets as lists used only through
membership (`set.add` becomes `List.insert`, which is a no-op on a present
element).  The JSON storage side effects (`_load_from_storage`,
`_save_to_storage`) only mirror the in-memory sets and are not modelled. -/

/-- Python's whitespace set for `str.strip` (space, tab, newline,
carriage return, vertical tab, form feed). -/
def isPySpace (c : Char) : Bool :=
  c = ' ' ∨ c = '\t' ∨ c = '\n' ∨ c = '\r' ∨ c = '\x0b' ∨ c = '\x0c'

/-- Python's `str.strip()`: drop leading and trailing whitespace. -/
def pyStrip (s : String) : String :=
  ⟨(((s.data.dropWhile isPySpace).reverse.dropWhile isPySpace).reverse)⟩

/-- `UploadResult` dataclass of `BlackListTracker.py`. -/
structure UploadResult where
  success : Bool
  total_processed : Nat
  valid_entries : Nat
  invalid_entries : Nat
  error_message : Option String := none
deriving DecidableEq, Repr

/-- In-memory state of `BlacklistService`: the single-address set and the
network set. -/
structure BlacklistState where
  single_ips : List String
  ip_networks : List IPv4Network
deriving DecidableEq, Repr

/-- `_is_valid_cidr`: the entry (already stripped by the caller's loop;
`_is_valid_cidr` strips again, which is idempotent) parses with
`ipaddress.ip_network(entry, strict=False)`. -/
def isValidCidr (entry : String) : Bool :=
  (parseIPv4Network (pyStrip entry)).isSome

/-- Accumulator of the `process_entries` loop:
valid count, invalid count, `new_networks`, `new_single_ips`. -/
structure ProcessAcc where
  valid : Nat
  invalid : Nat
  nets : List IPv4Network
  singles : List String
deriving DecidableEq, Repr

/-- One iteration of the `process_entries` loop body. -/
def stepEntry (acc : ProcessAcc) (entry : String) : ProcessAcc :=
  let e := pyStrip entry
  match parseIPv4Network e with
  | some net =>
    if net.numAddresses = 1 then
      { acc with valid := acc.valid + 1,
                 singles := acc.singles.insert (printIPv4 net.addr) }
    else
      { acc with valid := acc.valid + 1, nets := acc.nets.insert net }
  | none => { acc with invalid := acc.invalid + 1 }

/-- The `for entry in entries` loop of `process_entries`. -/
def processLoop (acc : ProcessAcc) : List String → ProcessAcc
  | [] => acc
  | e :: rest => processLoop (stepEntry acc e) rest

/-- `BlacklistService.process_entries`: validate every entry independently,
count valid and invalid ones, then replace both stored sets wholesale with
the freshly built ones.  (No statement in the loop can raise, so the
`except` branch returning `success=False` is dead; the model returns the
success result unconditionally.) -/
def processEntries (_st : BlacklistState) (entries : List String) :
    UploadResult × BlacklistState :=
  let acc := processLoop ⟨0, 0, [], []⟩ entries
  (⟨true, entries.length, acc.valid, acc.invalid, none⟩,
   ⟨acc.singles, acc.nets⟩)

/-- `BlacklistService.is_ip_blacklisted`: raise `ValueError` on an address
that does not parse; otherwise true iff the query string is in the
single-address set or the parsed address lies in some stored network. -/
def isIpBlacklisted (st : BlacklistState) (ip : String) :
    Except String Bool :=
  match parseIPv4 ip with
  | none => .error "Invalid IP address format"
  | some a =>
    if ip ∈ st.single_ips then .ok true
    else if st.ip_networks.any (memNet a) then .ok true
    else .ok false


/-! ### Models (`app/models/*.py`)

Python scalar values (str / int / float / bool / list of str) are one
inductive type; numbers are rationals.  Python's `==` treats `bool` as a
numeric type (`True == 1`), which `valueEq` mirrors. -/

/-- A Python scalar as it appears in rule values, rule conditions and fact
maps: `Union[str, int, float, bool, List[str]]`. -/
inductive Value where
  | vStr (s : String)
  | vNum (q : ℚ)
  | vBool (b : Bool)
  | vList (l : List String)
deriving DecidableEq, Repr

/-- Python `==` on scalars: numbers compare numerically and `bool` is a
subtype of `int` (`True == 1`); values of unrelated types are unequal. -/
def valueEq : Value → Value → Bool
  | .vStr a, .vStr b => a = b
  | .vNum a, .vNum b => a = b
  | .vBool a, .vBool b => a = b
  | .vBool a, .vNum b => (if a then (1 : ℚ) else 0) = b
  | .vNum a, .vBool b => a = (if b then (1 : ℚ) else 0)
  | .vList a, .vList b => a = b
  | _, _ => false

/-- `isinstance(v, (int, float))` — true for numbers and, because Python's
`bool` is a subclass of `int`, for booleans. -/
def Value.isNumeric : Value → Bool
  | .vNum _ => true
  | .vBool _ => true
  | _ => false

/-- Numeric value of a numeric scalar (`float(v)`); `True` is 1, `False` 0. -/
def Value.toRat : Value → ℚ
  | .vNum q => q
  | .vBool b => if b then 1 else 0
  | _ => 0

/-- `LocationInfo` dataclass (`app/models/IpGeoLocationTrackerModel.py`). -/
structure LocationInfo where
  type : String
  continent : String
  continent_code : String
  country : String
  country_code : String
  region : String
  region_code : String
  city : String
  latitude : ℚ
  longitude : ℚ
  is_eu : Bool
  postal : String
  calling_code : String
  capital : String
  borders : List String
  country_flag : String
deriving DecidableEq, Repr

/-- `ConnectionInfo` dataclass. -/
structure ConnectionInfo where
  asn : Int
  org : String
  isp : String
  domain : String
deriving DecidableEq, Repr

/-- `TimezoneInfo` dataclass (`current_time` as an abstract timestamp). -/
structure TimezoneInfo where
  id : String
  abbr : String
  is_dst : Bool
  offset : Int
  utc : String
  current_time : Nat
deriving DecidableEq, Repr

/-- `location.__dict__`: the fact map a `LocationInfo` exposes, keyed by
field name. -/
def locationDict (l : LocationInfo) : List (String × Value) :=
  [("type", .vStr l.type), ("continent", .vStr l.continent),
   ("continent_code", .vStr l.continent_code), ("country", .vStr l.country),
   ("country_code", .vStr l.country_code), ("region", .vStr l.region),
   ("region_code", .vStr l.region_code), ("city", .vStr l.city),
   ("latitude", .vNum l.latitude), ("longitude", .vNum l.longitude),
   ("is_eu", .vBool l.is_eu), ("postal", .vStr l.postal),
   ("calling_code", .vStr l.calling_code), ("capital", .vStr l.capital),
   ("borders", .vList l.borders), ("country_flag", .vStr l.country_flag)]

/-- `connection.__dict__`. -/
def connectionDict (c : ConnectionInfo) : List (String × Value) :=
  [("asn", .vNum c.asn), ("org", .vStr c.org), ("isp", .vStr c.isp),
   ("domain", .vStr c.domain)]

/-- `BlacklistReason` enum (`app/models/ReputationManagerModel.py`). -/
inductive BlacklistReason where
  | manual | suspiciousActivity | abuse | spam
  | malware | botnet | scanning | bruteForce
deriving DecidableEq, Repr

/-- `BlacklistEntry` pydantic model; timestamps are abstract `Nat`s
(`added_at` is filled by the caller-supplied clock in the model, standing
for `datetime.now()`). -/
structure BlacklistEntry where
  ip_address : String
  reason : BlacklistReason
  added_at : Nat
  expires_at : Option Nat := none
  notes : Option String := none
deriving DecidableEq, Repr

/-- `ReputationScore` pydantic model (`total_score` carries `ge=0`; the
`last_updated` timestamp is irrelevant to every claim and omitted).
`attribute_scores` is a Python dict modelled as an association list in
which the first binding for a key is its value. -/
structure ReputationScore where
  total_score : Int
  attribute_scores : List (String × Int) := []
  factors : List String := []
deriving DecidableEq, Repr

/-- `ReputationRule` pydantic model: free-form attribute name, points in
`[-100, 100]` (the pydantic bound; the structure itself is unconstrained
and theorems assume the bound where needed), optional description and a
conditions dict. -/
structure ReputationRule where
  «attribute» : String
  points : Int
  description : Option String := none
  conditions : List (String × Value) := []
deriving DecidableEq, Repr

/-! ### `ReputationManager` (`app/services/ReputationManager.py`)

The manager's blacklist is a Python dict from IP string to `BlacklistEntry`;
we model it as an association list with unique keys (assignment replaces,
`pop` removes).  Wall-clock reads (`datetime.utcnow()` / `datetime.now()`)
become an explicit `now : Nat` argument.  The external geolocation call
(`get_geo_data`, which drives `IpGeoLocationTracker.track_ip` and the HTTP
request inside it) is an oracle parameter returning either the three data
records or the raised exception's message. -/

/-- Geo data returned by `get_geo_data`. -/
def GeoData := LocationInfo × ConnectionInfo × TimezoneInfo

/-- A geolocation provider: either the parsed data or a raised exception's
message (`RequestException` / `ValueError` in `track_ip`). -/
def GeoOracle := String → Except String GeoData

/-- Mutable state of a `ReputationManager` (the score cache is untouched by
every claim; the rules list and the blacklist dict are what the claims
exercise). -/
structure RepState where
  blacklist : List (String × BlacklistEntry)
  rules : List ReputationRule
deriving DecidableEq, Repr

/-- Python dict lookup `self.blacklist.get(ip)`. -/
def RepState.lookupBL (st : RepState) (ip : String) : Option BlacklistEntry :=
  st.blacklist.lookup ip

/-- `ReputationManager.remove_from_blacklist`:
`self.blacklist.pop(ip_address, None)` — remove the key if present. -/
def removeFromBlacklist (st : RepState) (ip : String) : RepState :=
  { st with blacklist := st.blacklist.filter (fun p => p.1 ≠ ip) }

/-- `ReputationManager.add_to_blacklist`: build the entry (with
`added_at = now`, the `datetime.now()` default) and assign
`self.blacklist[ip] = entry`. -/
def addToBlacklist (st : RepState) (ip : String) (reason : BlacklistReason)
    (expires_at : Option Nat := none) (notes : Option String := none)
    (now : Nat := 0) : RepState :=
  { st with blacklist :=
      (ip, ⟨ip, reason, now, expires_at, notes⟩) ::
        st.blacklist.filter (fun p => p.1 ≠ ip) }

/-- `ReputationManager.is_blacklisted`: return the entry for the IP unless
it is absent or its `expires_at` lies strictly before `now`
(`datetime.utcnow()`); an expired entry is removed on the spot. -/
def isBlacklisted (st : RepState) (ip : String) (now : Nat) :
    Option BlacklistEntry × RepState :=
  match st.lookupBL ip with
  | none => (none, st)
  | some entry =>
    match entry.expires_at with
    | some t =>
      if t < now then (none, removeFromBlacklist st ip) else (some entry, st)
    | none => (some entry, st)

/-- `str.endswith(t)`: is `t` a suffix of `s`? -/
def strEndsWith (s t : String) : Bool :=
  List.isSuffixOf t.data s.data

/-- `str.endswith(('.proxy', '.vpn', '.tor'))` on the connection domain. -/
def suspiciousDomain (d : String) : Bool :=
  strEndsWith d ".proxy" ∨ strEndsWith d ".vpn" ∨ strEndsWith d ".tor"

/-- Python dict assignment `d[k] = v` on an association list with unique
keys. -/
def dictSet (k : String) (v : Int) (d : List (String × Int)) :
    List (String × Int) :=
  (k, v) :: d.filter (fun p => p.1 ≠ k)

/-- One iteration of the rule loop in `calculate_reputation`, threading
`(total_score, attribute_scores, factors)`.  Note the faithful quirk: the
conditions check compares the value of the rule's *primary* attribute
against every condition's expected value (the condition's own key is
ignored by the source). -/
def applyRule (loc : List (String × Value)) (conn : List (String × Value))
    (acc : Int × List (String × Int) × List String) (rule : ReputationRule) :
    Int × List (String × Int) × List String :=
  match loc.lookup rule.«attribute» with
  | some value =>
    if rule.conditions.all (fun c => valueEq value c.2) then
      (acc.1 + rule.points, dictSet rule.«attribute» rule.points acc.2.1,
       acc.2.2 ++ [rule.description.getD (rule.«attribute» ++ " match")])
    else acc
  | none =>
    match conn.lookup rule.«attribute» with
    | some value =>
      if rule.conditions.all (fun c => valueEq value c.2) then
        (acc.1 + rule.points, dictSet rule.«attribute» rule.points acc.2.1,
         acc.2.2 ++ [rule.description.getD (rule.«attribute» ++ " match")])
      else acc
    | none => acc

/-- `ReputationManager.calculate_reputation`: start from the base score 100,
apply every rule whose attribute appears among the location (else the
connection) facts and whose conditions hold, then the fixed −20 proxy/VPN/Tor
domain penalty, and clamp the returned total at zero (`max(0, total_score)`). -/
def calculateReputation (rules : List ReputationRule) (location : LocationInfo)
    (connection : ConnectionInfo) : ReputationScore :=
  let init : Int × List (String × Int) × List String := (100, [], [])
  let acc := rules.foldl (applyRule (locationDict location)
    (connectionDict connection)) init
  let acc :=
    if suspiciousDomain connection.domain then
      (acc.1 - 20, dictSet "proxy_penalty" (-20) acc.2.1,
       acc.2.2 ++ ["Proxy/VPN detection penalty"])
    else acc
  ⟨max 0 acc.1, acc.2.1, acc.2.2⟩

/-- Result dictionary of `analyze_ip`, one constructor per `status` value. -/
inductive AnalyzeResult where
  | blacklisted (entry : BlacklistEntry) (score : ReputationScore)
  | active (location : LocationInfo) (connection : ConnectionInfo)
      (timezone : TimezoneInfo) (score : ReputationScore)
  | error (msg : String)
deriving DecidableEq, Repr

/-- The `status` field of the returned dictionary. -/
def AnalyzeResult.status : AnalyzeResult → String
  | .blacklisted _ _ => "blacklisted"
  | .active _ _ _ _ => "active"
  | .error _ => "error"

/-- `ReputationManager.analyze_ip`: blacklist check first (short-circuiting
with a zero score), otherwise geolocation then reputation calculation, any
raised exception becoming the error result. -/
def analyzeIp (geo : GeoOracle) (st : RepState) (ip : String) (now : Nat) :
    AnalyzeResult × RepState :=
  match isBlacklisted st ip now with
  | (some entry, st') =>
    (.blacklisted entry ⟨0, [], ["IP is blacklisted"]⟩, st')
  | (none, st') =>
    match geo ip with
    | .error e => (.error e, st')
    | .ok (location, connection, timezone) =>
      (.active location connection timezone
        (calculateReputation st'.rules location connection), st')

/-! ### `PointRuleSystem` (`app/services/PointRuleBuilder.py`)

`PointRule` is a pydantic model whose `value` field carries a custom
validator.  Pydantic only runs field validators on *provided* values: a rule
built without the `value` keyword keeps the default `None` and skips the
validator, while an explicitly passed value — including an explicit `None` —
is validated.  Construction is therefore modelled by `mkPointRule`, whose
`value` argument is `Option (Option Value)`: the outer layer records whether
the keyword was provided. -/

/-- `GeoAttribute` enum. -/
inductive GeoAttribute where
  | country | country_code | city | continent | continent_code
  | region | region_code | latitude | longitude | is_eu
deriving DecidableEq, Repr

/-- The enum member's string value (`attr.value`). -/
def GeoAttribute.toStr : GeoAttribute → String
  | .country => "country"
  | .country_code => "country_code"
  | .city => "city"
  | .continent => "continent"
  | .continent_code => "continent_code"
  | .region => "region"
  | .region_code => "region_code"
  | .latitude => "latitude"
  | .longitude => "longitude"
  | .is_eu => "is_eu"

/-- `GeoAttribute(s)`: look a string up in the enum, failing on anything
outside the closed set. -/
def geoAttributeOfString (s : String) : Option GeoAttribute :=
  [GeoAttribute.country, .country_code, .city, .continent, .continent_code,
   .region, .region_code, .latitude, .longitude, .is_eu].find?
    (fun a => a.toStr = s)

/-- `PointRule` pydantic model (validated construction lives in
`mkPointRule`). -/
structure PointRule where
  «attribute» : GeoAttribute
  value : Option Value := none
  points : Int
  description : Option String := none
deriving DecidableEq, Repr

/-- The body of `PointRule.validate_value_for_attribute`, run on a provided
`value` (possibly an explicit `None`): for latitude/longitude the value must
be a Python number (`bool` included) in `[-90, 90]` / `[-180, 180]`; other
attributes accept anything. -/
def validateValueForAttribute (attr : GeoAttribute) (v : Option Value) :
    Except String (Option Value) :=
  if attr = .latitude ∨ attr = .longitude then
    match v with
    | some val =>
      if val.isNumeric then
        if attr = .latitude ∧ ¬(-90 ≤ val.toRat ∧ val.toRat ≤ 90) then
          .error "Latitude must be between -90 and 90"
        else if attr = .longitude ∧ ¬(-180 ≤ val.toRat ∧ val.toRat ≤ 180) then
          .error "Longitude must be between -180 and 180"
        else .ok v
      else .error (attr.toStr ++ " must be a number")
    | none => .error (attr.toStr ++ " must be a number")
  else .ok v

/-- `PointRule(...)`: pydantic construction.  `value = none` means the
keyword was not passed (default `None`, validator skipped); `value = some v`
means it was passed and `v` (an `Option Value`, `none` standing for an
explicit `None`) goes through the validator.  `points` carries
`Field(ge=0)`. -/
def mkPointRule (attr : GeoAttribute) (value : Option (Option Value))
    (points : Int) (description : Option String := none) :
    Except String PointRule :=
  if points < 0 then .error "Points must be non-negative"
  else
    match value with
    | none => .ok ⟨attr, none, points, description⟩
    | some v =>
      match validateValueForAttribute attr v with
      | .error e => .error e
      | .ok v' => .ok ⟨attr, v', points, description⟩

/-- `RuleGroup` pydantic model. -/
structure RuleGroup where
  name : String
  description : Option String := none
  rules : List PointRule := []
deriving DecidableEq, Repr

/-- `PointRuleSystem` pydantic model: ungrouped rules plus the group dict
(association list in insertion order, names unique by construction). -/
structure PointRuleSystem where
  rules : List PointRule := []
  groups : List (String × RuleGroup) := []
deriving DecidableEq, Repr

/-- `PointRuleSystem.add_rule`. -/
def addRule (sys : PointRuleSystem) (rule : PointRule) : PointRuleSystem :=
  { sys with rules := sys.rules ++ [rule] }

/-- `PointRuleSystem.create_group`: fails on a duplicate name, otherwise
appends an empty group. -/
def createGroup (sys : PointRuleSystem) (name : String)
    (description : Option String := none) :
    Except String PointRuleSystem :=
  if (sys.groups.lookup name).isSome then
    .error ("Group '" ++ name ++ "' already exists")
  else .ok { sys with groups := sys.groups ++ [(name, ⟨name, description, []⟩)] }

/-- Does one `PointRule` match the fact map
(`rule.attribute.value in data` and value equal or unset)? -/
def ruleMatches (rule : PointRule) (data : List (String × Value)) : Bool :=
  match data.lookup rule.«attribute».toStr with
  | none => false
  | some factVal =>
    match rule.value with
    | none => true
    | some v => valueEq factVal v

/-- `PointRuleSystem.evaluate_rules`: sum the points of every matching
ungrouped rule, then of every matching rule of every group, and return the
bare integer total (nothing else is returned). -/
def evaluateRules (sys : PointRuleSystem) (data : List (String × Value)) :
    Int :=
  let single := sys.rules.foldl
    (fun acc r => if ruleMatches r data then acc + r.points else acc) 0
  sys.groups.foldl
    (fun acc g => g.2.rules.foldl
      (fun acc r => if ruleMatches r data then acc + r.points else acc) acc)
    single

/-! #### Persistence (`save_rules` / `load_rules`)

The JSON document is modelled structurally: `rule.dict()` keeps the enum's
string value, and every rule dictionary always carries a `value` key, so
reloading always runs the pydantic validator on it (an explicit `None`
included). -/

/-- `rule.dict()`. -/
structure RuleDoc where
  «attribute» : String
  value : Option Value
  points : Int
  description : Option String
deriving DecidableEq, Repr

/-- `group.dict()`. -/
structure GroupDoc where
  name : String
  description : Option String
  rules : List RuleDoc
deriving DecidableEq, Repr

/-- The saved rules document
`{rules: [...], groups: {name: group.dict()}}`. -/
structure RulesDoc where
  rules : List RuleDoc
  groups : List (String × GroupDoc)
deriving DecidableEq, Repr

/-- `PointRule.dict`. -/
def PointRule.toDoc (r : PointRule) : RuleDoc :=
  ⟨r.«attribute».toStr, r.value, r.points, r.description⟩

/-- `RuleGroup.dict`. -/
def RuleGroup.toDoc (g : RuleGroup) : GroupDoc :=
  ⟨g.name, g.description, g.rules.map PointRule.toDoc⟩

/-- `PointRuleSystem.save_rules` (the document that is serialized; the file
write itself is out of scope). -/
def saveRules (sys : PointRuleSystem) : RulesDoc :=
  ⟨sys.rules.map PointRule.toDoc,
   sys.groups.map (fun p => (p.1, p.2.toDoc))⟩

/-- Reload one rule dictionary: `GeoAttribute(rule_data["attribute"])`
followed by `PointRule(**rule_data)` — the `value` key is present in the
saved dictionary, so it is a provided value and gets re-validated. -/
def loadRuleDoc (rd : RuleDoc) : Except String PointRule :=
  match geoAttributeOfString rd.«attribute» with
  | none => .error ("'" ++ rd.«attribute» ++ "' is not a valid GeoAttribute")
  | some attr => mkPointRule attr (some rd.value) rd.points rd.description

/-- Fallible map over a list (the `for` loops of `load_rules`, where the
first raised exception aborts the whole load). -/
def mapExcept (f : α → Except String β) : List α → Except String (List β)
  | [] => .ok []
  | x :: xs => do
    let y ← f x
    let ys ← mapExcept f xs
    .ok (y :: ys)

/-- One group of the `load_rules` loop: `create_group(name, description)`
(failing on a duplicate name), then re-validate and append the group's rules
in order. -/
def loadGroupStep (sys : PointRuleSystem) (pair : String × GroupDoc) :
    Except String PointRuleSystem := do
  let sys' ← createGroup sys pair.1 pair.2.description
  let grules ← mapExcept loadRuleDoc pair.2.rules
  let newGroups := sys'.groups.map
    (fun g => if g.1 = pair.1 then (g.1, { g.2 with rules := grules })
              else g)
  .ok { sys' with groups := newGroups }

/-- `PointRuleSystem.load_rules`: rebuild the system from the document —
each ungrouped rule re-validated, each group re-created with
`create_group` (duplicate names fail) and its rules appended in order. -/
def loadRules (doc : RulesDoc) : Except String PointRuleSystem := do
  let rules ← mapExcept loadRuleDoc doc.rules
  doc.groups.foldlM loadGroupStep { rules := rules, groups := [] }

/-! ### Concrete scenario data (used by scenario theorems below) -/

/-- A rule can be rebuilt by `load_rules`: its saved `value` passes the
pydantic validator when *provided* (which reload always does), and its
points pass `ge=0`. -/
def PointRule.reloadable (r : PointRule) : Prop :=
  (validateValueForAttribute r.«attribute» r.value).isOk = true ∧ 0 ≤ r.points

instance (r : PointRule) : Decidable r.reloadable := by
  unfold PointRule.reloadable
  exact instDecidableAnd

/-- Absolute range bound the validator enforces on latitude / longitude. -/
def attrLimit : GeoAttribute → ℚ
  | .latitude => 90
  | .longitude => 180
  | _ => 0

/-- The spec scenario's rule `{attribute: is_eu, value: true, points: 20}`. -/
def euRule : PointRule := ⟨.is_eu, some (.vBool true), 20, none⟩

/-- The spec scenario's fact map `{is_eu: true, country: "France"}`. -/
def euFacts : List (String × Value) :=
  [("is_eu", .vBool true), ("country", .vStr "France")]

/-- A location whose facts are `{is_eu: true, country: "France"}` (all other
fields empty). -/
def franceLoc : LocationInfo :=
  ⟨"", "", "", "France", "", "", "", "", 0, 0, true, "", "", "", [], ""⟩

/-- A connection with an unsuspicious domain. -/
def plainConn : ConnectionInfo := ⟨0, "", "", "example.com"⟩

/-- The scenario rule in `ReputationRule` form (the shape
`calculate_reputation` consumes): expecting `is_eu == true`. -/
def euRepRule : ReputationRule := ⟨"is_eu", 20, none, [("is_eu", .vBool true)]⟩

/-- The same rule carrying a description. -/
def euRepRuleDesc : ReputationRule :=
  ⟨"is_eu", 20, some "EU member state bonus", [("is_eu", .vBool true)]⟩

/-- A latitude rule constructed without the `value` keyword (constructible:
the validator is skipped on the unprovided default). -/
def latRule : PointRule := ⟨.latitude, none, 5, none⟩

/-- A one-rule system containing `latRule`. -/
def sysLat : PointRuleSystem := ⟨[latRule], []⟩

/-- A rule whose saved form re-validates fine. -/
def okRule : PointRule := ⟨.country, some (.vStr "US"), 10, some "US bonus"⟩

/-- A well-formed system with one ungrouped rule and one group. -/
def okSys : PointRuleSystem :=
  ⟨[okRule], [("g1", ⟨"g1", some "group", [euRule]⟩)]⟩


/-- Blacklist entry for the spec scenario IP `203.0.113.5` (reason Abuse,
no expiry). -/
def wEntry : BlacklistEntry := ⟨"203.0.113.5", .abuse, 0, none, none⟩

/-- A manager state whose manual blacklist holds `wEntry`. -/
def wState : RepState := ⟨[("203.0.113.5", wEntry)], []⟩

/-- An entry whose expiry (time 10) lies in the past at lookup time 20. -/
def wExpEntry : BlacklistEntry := ⟨"1.2.3.4", .manual, 0, some 10, none⟩

/-- A manager state holding the expired entry. -/
def wExpState : RepState := ⟨[("1.2.3.4", wExpEntry)], []⟩

/-- A provider stub that always fails. -/
def wGeoFail : GeoOracle := fun _ => .error "lookup failed"

/-- A trivial timezone record. -/
def wTz : TimezoneInfo := ⟨"", "", false, 0, "", 0⟩

/-- A provider stub that always succeeds with the France facts. -/
def wGeoOk : GeoOracle := fun _ => .ok (franceLoc, plainConn, wTz)

/-! ## Sanity checks on concrete inputs -/

example : parseIPv4 "8.8.8.8" = some 0x08080808 := by decide
example : parseIPv4 "10.0.0.5" = some 0x0A000005 := by decide
example : parseIPv4 "not-an-ip" = none := by decide
example : parseIPv4 "1.2.3" = none := by decide
example : parseIPv4 "1.2.3.256" = none := by decide
example : parseIPv4 "01.2.3.4" = none := by decide
example : parseIPv4Network "10.0.0.0/24" = some ⟨0x0A000000, 24⟩ := by decide
example : parseIPv4Network "10.0.0.7/24" = some ⟨0x0A000000, 24⟩ := by decide
example : parseIPv4Network "8.8.8.8" = some ⟨0x08080808, 32⟩ := by decide
example : parseIPv4Network "10.0.0.0/33" = none := by decide
example : printIPv4 0x08080808 = "8.8.8.8" := by decide
example : printIPv4 0x0A000005 = "10.0.0.5" := by decide

example :
    (processEntries ⟨[], []⟩ ["10.0.0.0/24", "not-an-ip", "8.8.8.8"]).1 =
      ⟨true, 3, 2, 1, none⟩ := by decide
example :
    isIpBlacklisted
      (processEntries ⟨[], []⟩ ["10.0.0.0/24", "not-an-ip", "8.8.8.8"]).2
      "10.0.0.5" = .ok true := by rfl
example :
    isIpBlacklisted
      (processEntries ⟨[], []⟩ ["10.0.0.0/24", "not-an-ip", "8.8.8.8"]).2
      "8.8.8.8" = .ok true := by rfl

/-! #### Canonical-form lemmas

`str(IPv4Address(a))` round-trips through parsing: the canonical dotted quad
of any address below `2^32` parses back to that address. -/


set_option maxRecDepth 4096 in
theorem octetChars_sep (n : Nat) (hn : n < 256) :
    ∀ c ∈ octetChars n, c ≠ '.' ∧ c ≠ '/' := by
  revert n; decide

set_option maxRecDepth 4096 in
theorem parseOctet_octetChars (n : Nat) (hn : n < 256) :
    parseOctet (octetChars n) = some n := by
  revert n; decide

theorem splitSep_append (sep : Char) (xs rest : List Char) (g : List Char)
    (gs : List (List Char)) (hx : ∀ c ∈ xs, c ≠ sep)
    (h : splitSep sep rest = g :: gs) :
    splitSep sep (xs ++ rest) = (xs ++ g) :: gs := by
  induction xs with
  | nil => simpa using h
  | cons c xs ih =>
    have hc : c ≠ sep := hx c (List.mem_cons_self ..)
    have ih' := ih (fun c' hc' => hx c' (List.mem_cons_of_mem _ hc'))
    simp only [List.cons_append, splitSep, if_neg hc, List.append_eq, ih']

theorem splitSep_sep_cons (sep : Char) (rest : List Char) :
    splitSep sep (sep :: rest) = [] :: splitSep sep rest := by
  simp [splitSep]

theorem parseIPv4_printIPv4 (a : Nat) (ha : a < 2 ^ 32) :
    parseIPv4 (printIPv4 a) = some a := by
  have h1 : a / 2 ^ 24 % 256 < 256 := Nat.mod_lt _ (by norm_num)
  have h2 : a / 2 ^ 16 % 256 < 256 := Nat.mod_lt _ (by norm_num)
  have h3 : a / 2 ^ 8 % 256 < 256 := Nat.mod_lt _ (by norm_num)
  have h4 : a % 256 < 256 := Nat.mod_lt _ (by norm_num)
  have e4 : splitSep '.' (octetChars (a % 256)) = [octetChars (a % 256)] := by
    have := splitSep_append '.' (octetChars (a % 256)) [] [] []
      (fun c hc => (octetChars_sep _ h4 c hc).1) rfl
    simpa using this
  have e3 : splitSep '.' (octetChars (a / 2 ^ 8 % 256) ++ '.' :: octetChars (a % 256)) =
      [octetChars (a / 2 ^ 8 % 256), octetChars (a % 256)] := by
    have := splitSep_append '.' (octetChars (a / 2 ^ 8 % 256))
      ('.' :: octetChars (a % 256)) [] [octetChars (a % 256)]
      (fun c hc => (octetChars_sep _ h3 c hc).1)
      (by rw [splitSep_sep_cons, e4])
    simpa using this
  have e2 : splitSep '.' (octetChars (a / 2 ^ 16 % 256) ++ '.' ::
      (octetChars (a / 2 ^ 8 % 256) ++ '.' :: octetChars (a % 256))) =
      [octetChars (a / 2 ^ 16 % 256), octetChars (a / 2 ^ 8 % 256), octetChars (a % 256)] := by
    have := splitSep_append '.' (octetChars (a / 2 ^ 16 % 256))
      ('.' :: (octetChars (a / 2 ^ 8 % 256) ++ '.' :: octetChars (a % 256)))
      [] [octetChars (a / 2 ^ 8 % 256), octetChars (a % 256)]
      (fun c hc => (octetChars_sep _ h2 c hc).1)
      (by rw [splitSep_sep_cons, e3])
    simpa using this
  have e1 : splitSep '.' (octetChars (a / 2 ^ 24 % 256) ++ '.' ::
      (octetChars (a / 2 ^ 16 % 256) ++ '.' ::
        (octetChars (a / 2 ^ 8 % 256) ++ '.' :: octetChars (a % 256)))) =
      [octetChars (a / 2 ^ 24 % 256), octetChars (a / 2 ^ 16 % 256),
       octetChars (a / 2 ^ 8 % 256), octetChars (a % 256)] := by
    have := splitSep_append '.' (octetChars (a / 2 ^ 24 % 256))
      ('.' :: (octetChars (a / 2 ^ 16 % 256) ++ '.' ::
        (octetChars (a / 2 ^ 8 % 256) ++ '.' :: octetChars (a % 256))))
      [] [octetChars (a / 2 ^ 16 % 256), octetChars (a / 2 ^ 8 % 256), octetChars (a % 256)]
      (fun c hc => (octetChars_sep _ h1 c hc).1)
      (by rw [splitSep_sep_cons, e2])
    simpa using this
  show parseIPv4 ⟨_⟩ = some a
  unfold parseIPv4
  simp only [String.data]
  rw [e1]
  simp only [List.map_cons, List.map_nil,
    parseOctet_octetChars _ h1, parseOctet_octetChars _ h2,
    parseOctet_octetChars _ h3, parseOctet_octetChars _ h4]
  congr 1
  omega

/-! #### Bounds: every parsed address is below `2^32` and every parsed
network's range stays below `2^32`. -/


theorem parseOctet_le {cs : List Char} {n : Nat} (h : parseOctet cs = some n) :
    n ≤ 255 := by
  match cs with
  | [] => simp [parseOctet] at h
  | [c] =>
    simp only [parseOctet] at h
    split at h
    · rename_i hd
      have hb : 48 ≤ c.toNat ∧ c.toNat ≤ 57 := by
        simpa [isDigitChar] using hd
      simp only [Option.some.injEq] at h
      simp only [digitVal] at h
      omega
    · exact absurd h (by simp)
  | [c₁, c₂] =>
    simp only [parseOctet] at h
    split at h
    · rename_i hd
      have hb : (48 ≤ c₁.toNat ∧ c₁.toNat ≤ 57) ∧ (48 ≤ c₂.toNat ∧ c₂.toNat ≤ 57) := by
        constructor
        · simpa [isDigitChar] using hd.1
        · simpa [isDigitChar] using hd.2.1
      simp only [Option.some.injEq] at h
      simp only [digitVal] at h
      omega
    · exact absurd h (by simp)
  | [c₁, c₂, c₃] =>
    simp only [parseOctet] at h
    split at h
    · split at h
      · rename_i hle
        simp only [Option.some.injEq] at h
        omega
      · exact absurd h (by simp)
    · exact absurd h (by simp)
  | _ :: _ :: _ :: _ :: _ => simp [parseOctet] at h

theorem parseIPv4_lt {s : String} {a : Nat} (h : parseIPv4 s = some a) :
    a < 2 ^ 32 := by
  unfold parseIPv4 at h
  have hmem : ∀ b : Nat,
      some b ∈ (splitSep '.' s.data).map parseOctet → b ≤ 255 := by
    intro b hb
    rcases List.mem_map.mp hb with ⟨x, _, hx⟩
    exact parseOctet_le hx
  split at h
  · rename_i b1 b2 b3 b4 heq
    have h1 : b1 ≤ 255 := hmem b1 (heq ▸ by simp)
    have h2 : b2 ≤ 255 := hmem b2 (heq ▸ by simp)
    have h3 : b3 ≤ 255 := hmem b3 (heq ▸ by simp)
    have h4 : b4 ≤ 255 := hmem b4 (heq ▸ by simp)
    simp only [Option.some.injEq] at h
    omega
  · exact absurd h (by simp)

theorem parsePrefixLen_le {cs : List Char} {p : Nat}
    (h : parsePrefixLen cs = some p) : p ≤ 32 := by
  unfold parsePrefixLen at h
  split at h
  · dsimp only at h
    split at h
    · rename_i hle
      simp only [Option.some.injEq] at h
      omega
    · exact absurd h (by simp)
  · exact absurd h (by simp)

theorem maskAddr_bound {a p : Nat} (ha : a < 2 ^ 32) (hp : p ≤ 32) :
    maskAddr a p + 2 ^ (32 - p) ≤ 2 ^ 32 := by
  have hsplit : (2 : Nat) ^ (32 - p) * 2 ^ p = 2 ^ 32 := by
    rw [← pow_add]
    congr 1
    omega
  have hm : 0 < 2 ^ (32 - p) := Nat.pos_pow_of_pos _ (by norm_num)
  have hq : a / 2 ^ (32 - p) < 2 ^ p := by
    rw [Nat.div_lt_iff_lt_mul hm]
    calc a < 2 ^ 32 := ha
    _ = 2 ^ p * 2 ^ (32 - p) := by rw [mul_comm]; exact hsplit.symm
  have : 2 ^ (32 - p) * (a / 2 ^ (32 - p) + 1) ≤ 2 ^ (32 - p) * 2 ^ p :=
    Nat.mul_le_mul_left _ hq
  calc maskAddr a p + 2 ^ (32 - p)
      = 2 ^ (32 - p) * (a / 2 ^ (32 - p) + 1) := by
        simp [maskAddr, Nat.mul_add]
    _ ≤ 2 ^ (32 - p) * 2 ^ p := this
    _ = 2 ^ 32 := hsplit

theorem parseIPv4Network_bound {s : String} {net : IPv4Network}
    (h : parseIPv4Network s = some net) :
    net.addr + 2 ^ (32 - net.prefixLen) ≤ 2 ^ 32 := by
  unfold parseIPv4Network at h
  split at h
  · rcases Option.map_eq_some'.mp h with ⟨a, ha, rfl⟩
    have := parseIPv4_lt ha
    simp only
    omega
  · rename_i addrPart pPart heq
    simp only [Option.bind_eq_bind, Option.bind_eq_some] at h
    rcases h with ⟨a, ha, h⟩
    rcases h with ⟨p, hp, h⟩
    simp only [Option.some.injEq] at h
    subst h
    exact maskAddr_bound (parseIPv4_lt ha) (parsePrefixLen_le hp)
  · exact absurd h (by simp)

/-! #### Processing-loop lemmas: counts are additive and every valid entry
lands in the freshly built sets. -/


theorem processLoop_cons (acc : ProcessAcc) (e : String) (es : List String) :
    processLoop acc (e :: es) = processLoop (stepEntry acc e) es := rfl

theorem stepEntry_singles_mono {acc : ProcessAcc} {e : String} {s : String}
    (h : s ∈ acc.singles) : s ∈ (stepEntry acc e).singles := by
  simp only [stepEntry]
  split
  · split
    · exact List.mem_insert_iff.mpr (Or.inr h)
    · exact h
  · exact h

theorem stepEntry_nets_mono {acc : ProcessAcc} {e : String} {net : IPv4Network}
    (h : net ∈ acc.nets) : net ∈ (stepEntry acc e).nets := by
  simp only [stepEntry]
  split
  · split
    · exact h
    · exact List.mem_insert_iff.mpr (Or.inr h)
  · exact h

theorem processLoop_singles_mono {es : List String} {acc : ProcessAcc}
    {s : String} (h : s ∈ acc.singles) :
    s ∈ (processLoop acc es).singles := by
  induction es generalizing acc with
  | nil => exact h
  | cons e rest ih => exact ih (stepEntry_singles_mono h)

theorem processLoop_nets_mono {es : List String} {acc : ProcessAcc}
    {net : IPv4Network} (h : net ∈ acc.nets) :
    net ∈ (processLoop acc es).nets := by
  induction es generalizing acc with
  | nil => exact h
  | cons e rest ih => exact ih (stepEntry_nets_mono h)

theorem processLoop_mem {es : List String} {e : String} {net : IPv4Network}
    (he : e ∈ es) (hp : parseIPv4Network (pyStrip e) = some net)
    (acc : ProcessAcc) :
    (net.numAddresses = 1 →
      printIPv4 net.addr ∈ (processLoop acc es).singles) ∧
    (net.numAddresses ≠ 1 → net ∈ (processLoop acc es).nets) := by
  induction es generalizing acc with
  | nil => exact absurd he (List.not_mem_nil e)
  | cons x rest ih =>
    rw [processLoop_cons]
    rcases List.mem_cons.mp he with rfl | hmem
    · constructor
      · intro h1
        refine processLoop_singles_mono ?_
        simp only [stepEntry]
        rw [hp]
        simp only [if_pos h1]
        exact List.mem_insert_iff.mpr (Or.inl rfl)
      · intro h1
        refine processLoop_nets_mono ?_
        simp only [stepEntry]
        rw [hp]
        simp only [if_neg h1]
        exact List.mem_insert_iff.mpr (Or.inl rfl)
    · exact ih hmem _

theorem processLoop_counts (es : List String) (acc : ProcessAcc) :
    (processLoop acc es).valid + (processLoop acc es).invalid =
      acc.valid + acc.invalid + es.length := by
  induction es generalizing acc with
  | nil => simp [processLoop]
  | cons e rest ih =>
    rw [processLoop_cons]
    have h := ih (stepEntry acc e)
    have hstep : (stepEntry acc e).valid + (stepEntry acc e).invalid =
        acc.valid + acc.invalid + 1 := by
      simp only [stepEntry]
      split
      · split <;> (dsimp only; omega)
      · dsimp only
        omega
    rw [h, hstep, List.length_cons]
    omega

theorem isIpBlacklisted_singles {st : BlacklistState} {ip : String} {a : Nat}
    (hpa : parseIPv4 ip = some a) (hm : ip ∈ st.single_ips) :
    isIpBlacklisted st ip = .ok true := by
  unfold isIpBlacklisted
  rw [hpa]
  simp [hm]

theorem isIpBlacklisted_nets {st : BlacklistState} {ip : String} {a : Nat}
    {net : IPv4Network} (hpa : parseIPv4 ip = some a)
    (hnet : net ∈ st.ip_networks) (hm : memNet a net = true) :
    isIpBlacklisted st ip = .ok true := by
  unfold isIpBlacklisted
  rw [hpa]
  by_cases hs : ip ∈ st.single_ips
  · simp [hs]
  · have hany : st.ip_networks.any (memNet a) = true :=
      List.any_eq_true.mpr ⟨net, hnet, hm⟩
    simp [hs, hany]

/-! ## Association-list lemmas for the manual blacklist dict -/

theorem lookup_filter_ne (l : List (String × BlacklistEntry)) (ip : String) :
    (l.filter (fun p => p.1 ≠ ip)).lookup ip = none := by
  rw [List.lookup_eq_none_iff]
  intro p hp
  have hne : p.1 ≠ ip := by simpa using (List.mem_filter.mp hp).2
  simpa [bne_iff_ne] using Ne.symm hne

theorem filter_ne_idem (l : List (String × BlacklistEntry)) (ip : String) :
    (l.filter (fun p => p.1 ≠ ip)).filter (fun p => p.1 ≠ ip) =
      l.filter (fun p => p.1 ≠ ip) := by
  rw [List.filter_filter]
  simp

theorem lookup_none_filter_eq (l : List (String × BlacklistEntry))
    (ip : String) (h : l.lookup ip = none) :
    l.filter (fun p => p.1 ≠ ip) = l := by
  rw [List.lookup_eq_none_iff] at h
  rw [List.filter_eq_self]
  intro p hp
  have := h p hp
  simp only [bne_iff_ne] at this
  simpa using Ne.symm this

/-! ## Reload lemmas for the rules document -/

theorem geoAttributeOfString_toStr (a : GeoAttribute) :
    geoAttributeOfString a.toStr = some a := by
  cases a <;> rfl

theorem validateValue_ok {attr : GeoAttribute} {v w : Option Value}
    (h : validateValueForAttribute attr v = .ok w) : w = v := by
  unfold validateValueForAttribute at h
  split at h
  · rcases v with _ | val
    · simp at h
    · simp only [] at h
      split_ifs at h
      all_goals simp_all
  · exact (Except.ok.inj h).symm

theorem loadRuleDoc_toDoc {r : PointRule} (h : r.reloadable) :
    loadRuleDoc r.toDoc = .ok r := by
  obtain ⟨hv, hp⟩ := h
  unfold loadRuleDoc PointRule.toDoc
  dsimp only
  rw [geoAttributeOfString_toStr]
  dsimp only
  unfold mkPointRule
  rw [if_neg (by omega)]
  dsimp only
  rcases he : validateValueForAttribute r.«attribute» r.value with e | w
  · rw [he] at hv
    simp [Except.isOk, Except.toBool] at hv
  · rw [validateValue_ok he]

theorem mapExcept_map {α β : Type} (f : β → Except String α) (g : α → β)
    (l : List α) (h : ∀ x ∈ l, f (g x) = .ok x) :
    mapExcept f (l.map g) = .ok l := by
  induction l with
  | nil => rfl
  | cons x xs ih =>
    simp only [List.map_cons, mapExcept]
    rw [h x (List.mem_cons_self ..),
      ih (fun y hy => h y (List.mem_cons_of_mem _ hy))]
    rfl

theorem lookup_eq_none_of_not_mem {l : List (String × RuleGroup)} {k : String}
    (h : k ∉ l.map Prod.fst) : l.lookup k = none := by
  rw [List.lookup_eq_none_iff]
  intro p hp
  simp only [bne_iff_ne]
  exact fun he => h (he ▸ List.mem_map_of_mem Prod.fst hp)

theorem map_update_of_not_mem {l : List (String × RuleGroup)} {k : String}
    (f : String × RuleGroup → String × RuleGroup)
    (h : k ∉ l.map Prod.fst) :
    l.map (fun g => if g.1 = k then f g else g) = l := by
  induction l with
  | nil => rfl
  | cons p rest ih =>
    simp only [List.map_cons, List.mem_cons, not_or] at h
    simp only [List.map_cons]
    rw [if_neg (fun he => h.1 he.symm), ih h.2]

theorem loadGroupStep_ok (rules : List PointRule)
    (done : List (String × RuleGroup)) (p : String × RuleGroup)
    (hnotin : p.1 ∉ done.map Prod.fst)
    (hpr : ∀ r ∈ p.2.rules, r.reloadable) (hpname : p.2.name = p.1) :
    loadGroupStep ⟨rules, done⟩ (p.1, p.2.toDoc) = .ok ⟨rules, done ++ [p]⟩ := by
  obtain ⟨k, g⟩ := p
  obtain ⟨gname, gdesc, grules⟩ := g
  dsimp only at hnotin hpr hpname
  subst hpname
  unfold loadGroupStep createGroup RuleGroup.toDoc
  dsimp only
  rw [lookup_eq_none_of_not_mem hnotin]
  dsimp only [Option.isSome]
  rw [if_neg (by simp)]
  show (mapExcept loadRuleDoc (grules.map PointRule.toDoc)).bind _ = _
  rw [mapExcept_map _ _ _ (fun r hr => loadRuleDoc_toDoc (hpr r hr))]
  show Except.ok _ = _
  rw [List.map_append, map_update_of_not_mem _ hnotin]
  simp

theorem loadRules_groups_aux (rules : List PointRule)
    (rest : List (String × RuleGroup)) :
    ∀ done : List (String × RuleGroup),
      (done.map Prod.fst ++ rest.map Prod.fst).Nodup →
      (∀ p ∈ rest, (∀ r ∈ p.2.rules, r.reloadable) ∧ p.2.name = p.1) →
      List.foldlM loadGroupStep (⟨rules, done⟩ : PointRuleSystem)
        (rest.map (fun p => (p.1, p.2.toDoc))) = .ok ⟨rules, done ++ rest⟩ := by
  induction rest with
  | nil =>
    intro done _ _
    simp only [List.map_nil, List.foldlM_nil, List.append_nil]
    rfl
  | cons p rest' ih =>
    intro done hnd hr
    obtain ⟨hpr, hpname⟩ := hr p (List.mem_cons_self ..)
    have hnotin : p.1 ∉ done.map Prod.fst := by
      rcases List.nodup_append.mp hnd with ⟨-, -, hdisj⟩
      intro hmem
      exact hdisj hmem (by simp)
    simp only [List.map_cons, List.foldlM_cons]
    rw [loadGroupStep_ok rules done p hnotin hpr hpname]
    show List.foldlM loadGroupStep (⟨rules, done ++ [p]⟩ : PointRuleSystem) _ = _
    rw [ih (done ++ [p]) (by simpa [List.append_assoc] using hnd)
      (fun q hq => hr q (List.mem_cons_of_mem _ hq))]
    simp

/-! ## Claims -/

/-- Claim C1: for every IP present in the manager's blacklist and not
expired at lookup time, `analyze_ip` returns the blacklisted result carrying
a reputation score with `total_score = 0` and `factors = ["IP is
blacklisted"]`, the result's status (the code's representation of the
blacklisted flag) is `"blacklisted"`, and the geo provider is never invoked:
the result is the same under every provider oracle. -/
theorem analyze_ip_blacklisted_short_circuit (geo geo' : GeoOracle)
    (st : RepState) (ip : String) (now : Nat) (entry : BlacklistEntry)
    (hlook : st.lookupBL ip = some entry)
    (hexp : ∀ t, entry.expires_at = some t → ¬ t < now) :
    analyzeIp geo st ip now =
      (.blacklisted entry ⟨0, [], ["IP is blacklisted"]⟩, st) ∧
    (analyzeIp geo st ip now).1.status = "blacklisted" ∧
    analyzeIp geo st ip now = analyzeIp geo' st ip now := by
  have hb : isBlacklisted st ip now = (some entry, st) := by
    unfold isBlacklisted
    rw [hlook]
    dsimp only
    rcases he : entry.expires_at with _ | t
    · rfl
    · simp [hexp t he]
  have h1 : analyzeIp geo st ip now =
      (.blacklisted entry ⟨0, [], ["IP is blacklisted"]⟩, st) := by
    unfold analyzeIp
    rw [hb]
  have h2 : analyzeIp geo' st ip now =
      (.blacklisted entry ⟨0, [], ["IP is blacklisted"]⟩, st) := by
    unfold analyzeIp
    rw [hb]
  exact ⟨h1, by rw [h1]; rfl, by rw [h1, h2]⟩

/-- Witness for C1: the spec scenario `203.0.113.5` with reason Abuse and no
expiry, under a succeeding and a failing provider stub. -/
theorem analyze_ip_blacklisted_short_circuit_witness :
    wState.lookupBL "203.0.113.5" = some wEntry ∧
    (∀ t, wEntry.expires_at = some t → ¬ t < 5) ∧
    (analyzeIp wGeoOk wState "203.0.113.5" 5 =
        (.blacklisted wEntry ⟨0, [], ["IP is blacklisted"]⟩, wState) ∧
      (analyzeIp wGeoOk wState "203.0.113.5" 5).1.status = "blacklisted" ∧
      analyzeIp wGeoOk wState "203.0.113.5" 5 =
        analyzeIp wGeoFail wState "203.0.113.5" 5) :=
  ⟨rfl, fun t ht => by simp [wEntry] at ht,
   analyze_ip_blacklisted_short_circuit wGeoOk wGeoFail wState "203.0.113.5"
     5 wEntry rfl (fun t ht => by simp [wEntry] at ht)⟩

/-- Claim C2: `process_entries` counts every entry (processed equals the
input length, valid + invalid = processed, invalid entries never abort the
batch), the resulting stored sets depend only on the entry list (wholesale
replacement: no old entry survives), and the scenario
`["10.0.0.0/24", "not-an-ip", "8.8.8.8"]` yields processed 3 / valid 2 /
invalid 1 with `10.0.0.5` and `8.8.8.8` blacklisted afterwards. -/
theorem process_entries_bulk_replace (st st' : BlacklistState)
    (entries : List String) :
    (processEntries st entries).1.total_processed = entries.length ∧
    (processEntries st entries).1.valid_entries
      + (processEntries st entries).1.invalid_entries = entries.length ∧
    (processEntries st entries).2 = (processEntries st' entries).2 ∧
    (processEntries st ["10.0.0.0/24", "not-an-ip", "8.8.8.8"]).1 =
      ⟨true, 3, 2, 1, none⟩ ∧
    isIpBlacklisted
      (processEntries st ["10.0.0.0/24", "not-an-ip", "8.8.8.8"]).2
      "10.0.0.5" = .ok true ∧
    isIpBlacklisted
      (processEntries st ["10.0.0.0/24", "not-an-ip", "8.8.8.8"]).2
      "8.8.8.8" = .ok true := by
  refine ⟨rfl, ?_, rfl, by rfl, by rfl, by rfl⟩
  have h := processLoop_counts entries ⟨0, 0, [], []⟩
  dsimp only at h
  simp only [processEntries]
  omega

/-- Claim C3: `is_ip_blacklisted` raises the invalid-address error exactly
when the query does not parse; on a parsed query it returns membership in
the single-address set or any stored network; and every address `a` inside a
network `N` taken from a processed entry list is reported blacklisted
afterwards (the query being `a`'s canonical dotted-quad form). -/
theorem is_ip_blacklisted_semantics (st st₀ : BlacklistState)
    (entries : List String) (s e : String) (net : IPv4Network) (a : Nat) :
    (parseIPv4 s = none →
      isIpBlacklisted st s = .error "Invalid IP address format") ∧
    (parseIPv4 s = some a →
      isIpBlacklisted st s =
        .ok (decide (s ∈ st.single_ips) || st.ip_networks.any (memNet a))) ∧
    (e ∈ entries → parseIPv4Network (pyStrip e) = some net →
      memNet a net = true →
      isIpBlacklisted (processEntries st₀ entries).2 (printIPv4 a) =
        .ok true) := by
  refine ⟨?_, ?_, ?_⟩
  · intro h
    unfold isIpBlacklisted
    rw [h]
  · intro h
    unfold isIpBlacklisted
    rw [h]
    by_cases hs : s ∈ st.single_ips
    · simp [hs]
    · rcases hn : st.ip_networks.any (memNet a) with _ | _
      · simp [hs, hn]
      · simp [hs, hn]
  · intro he hp hm
    have hbound := parseIPv4Network_bound hp
    have hm' : net.addr ≤ a ∧ a < net.addr + 2 ^ (32 - net.prefixLen) := by
      simpa [memNet] using hm
    have ha32 : a < 2 ^ 32 := by omega
    have hpa : parseIPv4 (printIPv4 a) = some a := parseIPv4_printIPv4 a ha32
    have hsets : (processEntries st₀ entries).2 =
        ⟨(processLoop ⟨0, 0, [], []⟩ entries).singles,
         (processLoop ⟨0, 0, [], []⟩ entries).nets⟩ := rfl
    by_cases h1 : net.numAddresses = 1
    · have hone : 2 ^ (32 - net.prefixLen) = 1 := h1
      have haddr : a = net.addr := by omega
      have hsing := (processLoop_mem he hp ⟨0, 0, [], []⟩).1 h1
      refine isIpBlacklisted_singles hpa ?_
      show printIPv4 a ∈ ((processEntries st₀ entries).2).single_ips
      rw [hsets]
      dsimp only
      rw [haddr]
      exact hsing
    · have hnet := (processLoop_mem he hp ⟨0, 0, [], []⟩).2 h1
      refine isIpBlacklisted_nets hpa ?_ hm
      rw [hsets]
      exact hnet

/-- Witness for C3: a non-parsing query errors, a stored single IP is
found, and `10.0.0.7` inside the processed `10.0.0.0/24` is blacklisted. -/
theorem is_ip_blacklisted_semantics_witness :
    (parseIPv4 "not-an-ip" = none ∧
      isIpBlacklisted ⟨["8.8.8.8"], []⟩ "not-an-ip" =
        .error "Invalid IP address format") ∧
    (parseIPv4 "8.8.8.8" = some 0x08080808 ∧
      isIpBlacklisted ⟨["8.8.8.8"], []⟩ "8.8.8.8" =
        .ok (decide
            ("8.8.8.8" ∈ (⟨["8.8.8.8"], []⟩ : BlacklistState).single_ips) ||
          (⟨["8.8.8.8"], []⟩ : BlacklistState).ip_networks.any
            (memNet 0x08080808))) ∧
    ("10.0.0.0/24" ∈ ["10.0.0.0/24"] ∧
      parseIPv4Network (pyStrip "10.0.0.0/24") = some ⟨0x0A000000, 24⟩ ∧
      memNet 0x0A000007 ⟨0x0A000000, 24⟩ = true ∧
      isIpBlacklisted (processEntries ⟨[], []⟩ ["10.0.0.0/24"]).2
        (printIPv4 0x0A000007) = .ok true) :=
  ⟨⟨rfl,
    (is_ip_blacklisted_semantics ⟨["8.8.8.8"], []⟩ ⟨[], []⟩ [] "not-an-ip"
      "" ⟨0, 32⟩ 0).1 rfl⟩,
   ⟨rfl,
    (is_ip_blacklisted_semantics ⟨["8.8.8.8"], []⟩ ⟨[], []⟩ [] "8.8.8.8"
      "" ⟨0, 32⟩ 0x08080808).2.1 rfl⟩,
   ⟨by decide, rfl, by decide,
    (is_ip_blacklisted_semantics ⟨[], []⟩ ⟨[], []⟩ ["10.0.0.0/24"] "x"
      "10.0.0.0/24" ⟨0x0A000000, 24⟩ 0x0A000007).2.2
      (by decide) rfl (by decide)⟩⟩

/-- Claim C4 counterexample: on the spec scenario (rule `is_eu = true`
worth 20 points, facts `{is_eu: true, country: "France"}`) the component
that does return a per-attribute breakdown and matched factors
(`calculate_reputation`) produces exactly breakdown `{is_eu: 20}` and
factors `["is_eu match"]`, but its total is not 20 (the base score 100 is
added), so no evaluator returns the claimed triple. -/
theorem evaluator_scenario_counterexample :
    (calculateReputation [euRepRule] franceLoc plainConn).attribute_scores =
      [("is_eu", 20)] ∧
    (calculateReputation [euRepRule] franceLoc plainConn).factors =
      ["is_eu match"] ∧
    (calculateReputation [euRepRule] franceLoc plainConn).total_score ≠ 20 ∧
    evaluateRules ⟨[euRule], []⟩ euFacts = 20 := by
  decide

/-- Claim C4, amended: the contract is split across two evaluators.
`PointRuleSystem.evaluate_rules` returns the bare total 20 for the scenario
(and nothing else); `ReputationManager.calculate_reputation` returns the
breakdown `{is_eu: 20}` and the factors `["is_eu match"]` (or the rule's
description when set) but a total of 120 = base 100 + 20. -/
theorem evaluator_scenario_split :
    evaluateRules ⟨[euRule], []⟩ euFacts = 20 ∧
    calculateReputation [euRepRule] franceLoc plainConn =
      ⟨120, [("is_eu", 20)], ["is_eu match"]⟩ ∧
    calculateReputation [euRepRuleDesc] franceLoc plainConn =
      ⟨120, [("is_eu", 20)], ["EU member state bonus"]⟩ := by
  decide

/-- Claim C5: for an IP the blacklist check does not stop, a failing geo
lookup makes `analyze_ip` return the error result carrying the provider's
message; the result is the error constructor (status `"error"`), never a
score-carrying one. -/
theorem analyze_ip_error_propagation (geo : GeoOracle) (st : RepState)
    (ip : String) (now : Nat) (msg : String)
    (hbl : (isBlacklisted st ip now).1 = none)
    (hgeo : geo ip = .error msg) :
    analyzeIp geo st ip now = (.error msg, (isBlacklisted st ip now).2) ∧
    (analyzeIp geo st ip now).1.status = "error" := by
  rcases hp : isBlacklisted st ip now with ⟨o, st2⟩
  rw [hp] at hbl
  dsimp only at hbl
  subst hbl
  have h1 : analyzeIp geo st ip now = (.error msg, st2) := by
    unfold analyzeIp
    rw [hp, hgeo]
  exact ⟨h1, by rw [h1]; rfl⟩

/-- Witness for C5: an empty blacklist and a provider stub failing with
"lookup failed". -/
theorem analyze_ip_error_propagation_witness :
    (isBlacklisted (⟨[], []⟩ : RepState) "8.8.8.8" 0).1 = none ∧
    wGeoFail "8.8.8.8" = .error "lookup failed" ∧
    (analyzeIp wGeoFail ⟨[], []⟩ "8.8.8.8" 0 =
        (.error "lookup failed",
          (isBlacklisted (⟨[], []⟩ : RepState) "8.8.8.8" 0).2) ∧
      (analyzeIp wGeoFail ⟨[], []⟩ "8.8.8.8" 0).1.status = "error") :=
  ⟨rfl, rfl,
   analyze_ip_error_propagation wGeoFail ⟨[], []⟩ "8.8.8.8" 0
     "lookup failed" rfl rfl⟩

/-- Claim C6: a blacklist entry whose expiry lies strictly in the past at
lookup time makes `is_blacklisted` report not-blacklisted and remove the
entry, after which every later check also reports not-blacklisted; an entry
with no expiry or an expiry not in the past is returned with the state
unchanged. -/
theorem is_blacklisted_expiry_eviction (st : RepState) (ip : String)
    (now now' : Nat) (entry : BlacklistEntry) (t : Nat)
    (hlook : st.lookupBL ip = some entry) :
    (entry.expires_at = some t → t < now →
      isBlacklisted st ip now = (none, removeFromBlacklist st ip) ∧
      isBlacklisted (removeFromBlacklist st ip) ip now' =
        (none, removeFromBlacklist st ip)) ∧
    ((entry.expires_at = none ∨ entry.expires_at = some t ∧ ¬ t < now) →
      isBlacklisted st ip now = (some entry, st)) := by
  have hremoved : (removeFromBlacklist st ip).lookupBL ip = none :=
    lookup_filter_ne st.blacklist ip
  constructor
  · intro hexp hlt
    constructor
    · unfold isBlacklisted
      rw [hlook]
      dsimp only
      rw [hexp]
      simp [hlt]
    · unfold isBlacklisted
      rw [hremoved]
  · rintro (hexp | ⟨hexp, hlt⟩)
    · unfold isBlacklisted
      rw [hlook]
      dsimp only
      rw [hexp]
    · unfold isBlacklisted
      rw [hlook]
      dsimp only
      rw [hexp]
      simp [hlt]

/-- Witness for C6: the entry for `1.2.3.4` expires at time 10; a check at
time 20 evicts it and a later check at time 99 still sees nothing. -/
theorem is_blacklisted_expiry_eviction_witness :
    wExpState.lookupBL "1.2.3.4" = some wExpEntry ∧
    wExpEntry.expires_at = some 10 ∧ 10 < 20 ∧
    isBlacklisted wExpState "1.2.3.4" 20 =
      (none, removeFromBlacklist wExpState "1.2.3.4") ∧
    isBlacklisted (removeFromBlacklist wExpState "1.2.3.4") "1.2.3.4" 99 =
      (none, removeFromBlacklist wExpState "1.2.3.4") :=
  ⟨rfl, rfl, by decide,
   ((is_blacklisted_expiry_eviction wExpState "1.2.3.4" 20 99 wExpEntry 10
      rfl).1 rfl (by decide)).1,
   ((is_blacklisted_expiry_eviction wExpState "1.2.3.4" 20 99 wExpEntry 10
      rfl).1 rfl (by decide)).2⟩

/-- Claim C7: after `add_to_blacklist` (no expiry) the check returns the
stored entry; after `remove_from_blacklist` it returns none; removal is
idempotent, and removing an absent IP is a no-op that changes nothing. -/
theorem blacklist_add_remove_idempotent (st : RepState) (x : String)
    (reason : BlacklistReason) (notes : Option String) (now now' : Nat) :
    (isBlacklisted (addToBlacklist st x reason none notes now) x now').1 =
      some ⟨x, reason, now, none, notes⟩ ∧
    (isBlacklisted (removeFromBlacklist st x) x now').1 = none ∧
    removeFromBlacklist (removeFromBlacklist st x) x =
      removeFromBlacklist st x ∧
    (st.lookupBL x = none → removeFromBlacklist st x = st) := by
  refine ⟨?_, ?_, ?_, ?_⟩
  · have hl : (addToBlacklist st x reason none notes now).lookupBL x =
        some ⟨x, reason, now, none, notes⟩ := by
      unfold addToBlacklist RepState.lookupBL
      dsimp only
      rw [List.lookup_cons_self]
    unfold isBlacklisted
    rw [hl]
  · unfold isBlacklisted
    rw [show (removeFromBlacklist st x).lookupBL x = none from
      lookup_filter_ne st.blacklist x]
  · unfold removeFromBlacklist
    dsimp only
    rw [filter_ne_idem]
  · intro h
    unfold removeFromBlacklist
    rw [lookup_none_filter_eq st.blacklist x h]

/-- Witness for C7: add / check / remove / double-remove of `9.9.9.9` on an
empty manager. -/
theorem blacklist_add_remove_idempotent_witness :
    ((isBlacklisted (addToBlacklist ⟨[], []⟩ "9.9.9.9" .manual none none 3)
        "9.9.9.9" 7).1 = some ⟨"9.9.9.9", .manual, 3, none, none⟩ ∧
      (isBlacklisted (removeFromBlacklist ⟨[], []⟩ "9.9.9.9") "9.9.9.9"
        7).1 = none ∧
      removeFromBlacklist (removeFromBlacklist ⟨[], []⟩ "9.9.9.9")
        "9.9.9.9" = removeFromBlacklist ⟨[], []⟩ "9.9.9.9" ∧
      ((⟨[], []⟩ : RepState).lookupBL "9.9.9.9" = none →
        removeFromBlacklist ⟨[], []⟩ "9.9.9.9" = ⟨[], []⟩)) ∧
    (⟨[], []⟩ : RepState).lookupBL "9.9.9.9" = none ∧
    removeFromBlacklist ⟨[], []⟩ "9.9.9.9" = ⟨[], []⟩ :=
  ⟨blacklist_add_remove_idempotent ⟨[], []⟩ "9.9.9.9" .manual none 3 7, rfl,
   (blacklist_add_remove_idempotent ⟨[], []⟩ "9.9.9.9" .manual none 3
     7).2.2.2 rfl⟩

/-- Claim C8 counterexample: the system holding one latitude rule whose
`value` was left unset is constructible (pydantic skips the validator on an
unprovided default), but saving writes `value: null` into the document and
reloading re-validates it as a provided value, so the round trip fails. -/
theorem rules_roundtrip_counterexample :
    mkPointRule .latitude none 5 none = .ok latRule ∧
    loadRules (saveRules sysLat) ≠ .ok sysLat := by
  decide

/-- Claim C8, amended: save-then-load is the identity on every system whose
group names are distinct, whose stored group names match their dict keys,
and whose every rule re-validates on reload (points non-negative and the
saved `value` passing the validator — which excludes latitude/longitude
rules with an unset value). -/
theorem rules_roundtrip_of_reloadable (sys : PointRuleSystem)
    (hr : ∀ r ∈ sys.rules, r.reloadable)
    (hg : ∀ p ∈ sys.groups, (∀ r ∈ p.2.rules, r.reloadable) ∧ p.2.name = p.1)
    (hnd : (sys.groups.map Prod.fst).Nodup) :
    loadRules (saveRules sys) = .ok sys := by
  unfold loadRules saveRules
  dsimp only
  rw [mapExcept_map _ _ _ (fun r hrr => loadRuleDoc_toDoc (hr r hrr))]
  show List.foldlM loadGroupStep (⟨sys.rules, []⟩ : PointRuleSystem) _ = _
  rw [loadRules_groups_aux sys.rules sys.groups [] (by simpa using hnd) hg]
  simp

/-- Witness for C8: a system with one ungrouped rule and one group
round-trips. -/
theorem rules_roundtrip_witness :
    (∀ r ∈ okSys.rules, r.reloadable) ∧
    (∀ p ∈ okSys.groups,
      (∀ r ∈ p.2.rules, r.reloadable) ∧ p.2.name = p.1) ∧
    (okSys.groups.map Prod.fst).Nodup ∧
    loadRules (saveRules okSys) = .ok okSys :=
  ⟨by decide, by decide, by decide,
   rules_roundtrip_of_reloadable okSys (by decide) (by decide) (by decide)⟩

/-- Claim C9: for a latitude/longitude rule with a provided (non-`None`)
value and admissible points, construction succeeds exactly when the value is
numeric and within `[-90, 90]` / `[-180, 180]`; a violating value makes
`PointRule(...)` fail with a validation error at construction time (rule
evaluation, `evaluateRules`, is a total function and can raise no such
error). -/
theorem point_rule_range_validation (attr : GeoAttribute) (v : Value)
    (pts : Int) (desc : Option String)
    (hattr : attr = .latitude ∨ attr = .longitude) (hpts : 0 ≤ pts) :
    ((mkPointRule attr (some (some v)) pts desc).isOk = true ↔
      v.isNumeric = true ∧
        -attrLimit attr ≤ v.toRat ∧ v.toRat ≤ attrLimit attr) ∧
    (¬(v.isNumeric = true ∧
        -attrLimit attr ≤ v.toRat ∧ v.toRat ≤ attrLimit attr) →
      ∃ msg, mkPointRule attr (some (some v)) pts desc = .error msg) := by
  have hnotneg : ¬ pts < 0 := by omega
  have key : (mkPointRule attr (some (some v)) pts desc).isOk = true ↔
      v.isNumeric = true ∧
        -attrLimit attr ≤ v.toRat ∧ v.toRat ≤ attrLimit attr := by
    rcases hattr with rfl | rfl
    · simp only [mkPointRule, validateValueForAttribute, if_neg hnotneg,
        attrLimit]
      by_cases hnum : v.isNumeric = true
      · by_cases hr1 : -(90 : ℚ) ≤ v.toRat ∧ v.toRat ≤ 90
        · simp [hnum, hr1, Except.isOk, Except.toBool]
        · simp [hnum, hr1, Except.isOk, Except.toBool]
      · simp [hnum, Except.isOk, Except.toBool]
    · simp only [mkPointRule, validateValueForAttribute, if_neg hnotneg,
        attrLimit]
      by_cases hnum : v.isNumeric = true
      · by_cases hr1 : -(180 : ℚ) ≤ v.toRat ∧ v.toRat ≤ 180
        · simp [hnum, hr1, Except.isOk, Except.toBool]
        · simp [hnum, hr1, Except.isOk, Except.toBool]
      · simp [hnum, Except.isOk, Except.toBool]
  refine ⟨key, fun hbad => ?_⟩
  have hne : (mkPointRule attr (some (some v)) pts desc).isOk ≠ true :=
    fun hok => hbad (key.mp hok)
  rcases hmk : mkPointRule attr (some (some v)) pts desc with msg | r
  · exact ⟨msg, rfl⟩
  · rw [hmk] at hne
    simp [Except.isOk, Except.toBool] at hne

/-- Witness for C9: latitude with value 45 and 10 points. -/
theorem point_rule_range_validation_witness :
    (GeoAttribute.latitude = .latitude ∨
      GeoAttribute.latitude = .longitude) ∧
    (0 : Int) ≤ 10 ∧
    (((mkPointRule .latitude (some (some (.vNum 45))) 10 none).isOk = true ↔
      (Value.vNum 45).isNumeric = true ∧
        -attrLimit .latitude ≤ (Value.vNum 45).toRat ∧
        (Value.vNum 45).toRat ≤ attrLimit .latitude) ∧
     (¬((Value.vNum 45).isNumeric = true ∧
        -attrLimit .latitude ≤ (Value.vNum 45).toRat ∧
        (Value.vNum 45).toRat ≤ attrLimit .latitude) →
      ∃ msg, mkPointRule .latitude (some (some (.vNum 45))) 10 none =
        .error msg)) :=
  ⟨Or.inl rfl, by decide,
   point_rule_range_validation .latitude (.vNum 45) 10 none (Or.inl rfl)
     (by decide)⟩

/-- Claim C10: `calculate_reputation` clamps its returned total at zero
(`max(0, total_score)`), so for every rule list (points may be negative)
and every location/connection input the returned `total_score` is never
below zero. -/
theorem calculate_reputation_nonneg (rules : List ReputationRule)
    (location : LocationInfo) (connection : ConnectionInfo) :
    0 ≤ (calculateReputation rules location connection).total_score := by
  unfold calculateReputation
  dsimp only
  split <;> exact le_max_left 0 _

end Cerberus
